import Mathlib

set_option maxRecDepth 200000

/-! Shallow embedding of the pipeline simulator (`src/backend/pipeline_fixed.cpp`,
the web-API variant of `src/backend/pipeline.cpp`): opcode tables, instruction
parsing, register scoreboard, execution-unit pool, hazard detection and the
cycle-accurate simulation loop, together with theorems about the behaviour
the specification describes.
-/

namespace Pipeline

/-- The source's `enum Opcode`. -/
inductive Opcode where
  | ADD | SUB | MUL | DIV | FADD | FMUL | FDIV
  | LOAD | STORE | BEQ | BNE | JMP | NOP
deriving DecidableEq, Repr

/-- The source's `enum ExecUnit`. -/
inductive ExecUnit where
  | ALU_UNIT | FPU_UNIT | MEM_UNIT | BRANCH_UNIT | ANY_UNIT
deriving DecidableEq, Repr

open Opcode ExecUnit

/-- The source's `getExecUnit`. -/
def getExecUnit : Opcode → ExecUnit
  | ADD | SUB | MUL | DIV => ALU_UNIT
  | FADD | FMUL | FDIV => FPU_UNIT
  | LOAD | STORE => MEM_UNIT
  | BEQ | BNE | JMP => BRANCH_UNIT
  | NOP => ANY_UNIT

/-- The source's `getLatency`. -/
def getLatency : Opcode → Nat
  | ADD | SUB => 1
  | MUL => 3
  | DIV => 8
  | FADD => 4
  | FMUL => 5
  | FDIV => 12
  | LOAD => 3
  | STORE => 2
  | BEQ | BNE | JMP => 1
  | NOP => 1

/-- The source's `stringToOpcode`: any unrecognised mnemonic falls through to `NOP`. -/
def stringToOpcode (str : String) : Opcode :=
  if str = "ADD" then ADD
  else if str = "SUB" then SUB
  else if str = "MUL" then MUL
  else if str = "DIV" then DIV
  else if str = "FADD" then FADD
  else if str = "FMUL" then FMUL
  else if str = "FDIV" then FDIV
  else if str = "LOAD" then LOAD
  else if str = "STORE" then STORE
  else if str = "BEQ" then BEQ
  else if str = "BNE" then BNE
  else if str = "JMP" then JMP
  else NOP

/-- The source's `unitToString`. -/
def unitToString : ExecUnit → String
  | ALU_UNIT => "ALU"
  | FPU_UNIT => "FPU"
  | MEM_UNIT => "MEM"
  | BRANCH_UNIT => "BRANCH"
  | ANY_UNIT => "ANY"

/-- The whitespace set of C++ `isspace` / `istream` extraction. -/
def isCppSpace (c : Char) : Bool :=
  c = ' ' || c = '\t' || c = '\n' || c = '\x0b' || c = '\x0c' || c = '\r'

/-- Leading decimal digits of a character list, as `std::stoi` reads them:
`none` when the first character is no digit (`stoi` throws). -/
def digitsToNat : List Char → Option Nat
  | c :: cs =>
      if c.isDigit then
        some ((c :: cs).takeWhile Char.isDigit |>.foldl
          (fun n d => 10 * n + (d.toNat - 48)) 0)
      else none
  | [] => none

/-- Model of `std::stoi`: skip whitespace, optional sign, then at least one digit;
`none` models the thrown `std::invalid_argument`. -/
def cppStoi (s : String) : Option Int :=
  match s.data.dropWhile isCppSpace with
  | '-' :: rest => (digitsToNat rest).map (fun n => -(n : Int))
  | '+' :: rest => (digitsToNat rest).map (fun n => (n : Int))
  | rest => (digitsToNat rest).map (fun n => (n : Int))

/-- The source's `parseRegister`: `"R"` followed by whatever `stoi` reads;
anything else (including a `stoi` failure) gives `-1`. -/
def parseRegister (reg_str : String) : Int :=
  if reg_str = "" ∨ reg_str.data.head? ≠ some 'R' then -1
  else
    match cppStoi (String.mk (reg_str.data.drop 1)) with
    | some n => n
    | none => -1

/-- The source's `struct Instruction`. -/
structure Instruction where
  id : Int
  opcode : Opcode
  src1 : Int
  src2 : Int
  dest : Int
  is_branch : Bool
  branch_target : Int
  original_string : String
deriving DecidableEq, Repr

/-- The source's `enum Stage`. -/
inductive Stage where
  | IDLE | FETCH | DECODE | ISSUE | EXECUTE | WRITEBACK | COMPLETE
deriving DecidableEq, Repr

open Stage

/-- The source's `struct PipelineState`. -/
structure PipelineState where
  current_stage : Stage
  assigned_unit : ExecUnit
  cycles_in_stage : Nat
  total_cycles : Nat
  stalled : Bool
  stall_reason : String
  issue_cycle : Int
  complete_cycle : Int
deriving DecidableEq, Repr

/-- The `PipelineState()` default constructor. -/
def initPipelineState : PipelineState :=
  { current_stage := IDLE, assigned_unit := ANY_UNIT, cycles_in_stage := 0,
    total_cycles := 0, stalled := false, stall_reason := "",
    issue_cycle := -1, complete_cycle := -1 }

/-- Scoreboard entry `RegInfo`. -/
structure RegInfo where
  busy : Bool
  writer_id : Int
  ready_cycle : Int
deriving DecidableEq, Repr

/-- The scoreboard's `num_registers`: it is constructed with 32 registers. -/
def numRegisters : Nat := 32

/-- The source's `class RegisterScoreboard` (32 entries, each initially `{false, -1, -1}`). -/
structure RegisterScoreboard where
  regs : List RegInfo
deriving DecidableEq, Repr

/-- The `RegisterScoreboard(32)` constructor. -/
def initScoreboard : RegisterScoreboard :=
  ⟨List.replicate numRegisters ⟨false, -1, -1⟩⟩

/-- Entry for register `r` (callers guard `0 ≤ r < 32`; reachable scoreboards
have exactly 32 entries). -/
def RegisterScoreboard.entry (sb : RegisterScoreboard) (reg : Int) : RegInfo :=
  sb.regs.getD reg.toNat ⟨false, -1, -1⟩

/-- Method `RegisterScoreboard::isBusy`. -/
def RegisterScoreboard.isBusy (sb : RegisterScoreboard) (reg : Int) (current_cycle : Int) :
    Bool :=
  if reg < 0 ∨ (numRegisters : Int) ≤ reg then false
  else (sb.entry reg).busy && (sb.entry reg).ready_cycle > current_cycle

/-- Method `RegisterScoreboard::markBusy`. -/
def RegisterScoreboard.markBusy (sb : RegisterScoreboard) (reg : Int) (instr_id : Int)
    (ready_cycle : Int) : RegisterScoreboard :=
  if 0 ≤ reg ∧ reg < (numRegisters : Int) then
    ⟨sb.regs.set reg.toNat ⟨true, instr_id, ready_cycle⟩⟩
  else sb

/-- Method `RegisterScoreboard::clearBusy` (the fixed variant clears only `busy`). -/
def RegisterScoreboard.clearBusy (sb : RegisterScoreboard) (reg : Int) :
    RegisterScoreboard :=
  if 0 ≤ reg ∧ reg < (numRegisters : Int) then
    ⟨sb.regs.set reg.toNat { sb.entry reg with busy := false }⟩
  else sb

/-- Method `RegisterScoreboard::getWriter`. -/
def RegisterScoreboard.getWriter (sb : RegisterScoreboard) (reg : Int) : Int :=
  if 0 ≤ reg ∧ reg < (numRegisters : Int) then (sb.entry reg).writer_id else -1

/-- The source's `class ExecutionUnits`: the per-unit availability counters. The `capacity`
map holds keys for the four real units only; `ANY_UNIT` is never a key. -/
structure ExecutionUnits where
  alu : Nat
  fpu : Nat
  mem : Nat
  branch : Nat
deriving DecidableEq, Repr

/-- The fixed `capacity` map (no entry for `ANY_UNIT`). -/
def capacityOf : ExecUnit → Nat
  | ALU_UNIT => 2
  | FPU_UNIT => 1
  | MEM_UNIT => 1
  | BRANCH_UNIT => 1
  | ANY_UNIT => 0

/-- Lookup `available[unit]` for the four keyed units (`ANY_UNIT` has no entry). -/
def ExecutionUnits.availOf (e : ExecutionUnits) : ExecUnit → Nat
  | ALU_UNIT => e.alu
  | FPU_UNIT => e.fpu
  | MEM_UNIT => e.mem
  | BRANCH_UNIT => e.branch
  | ANY_UNIT => 0

/-- Point update of one availability counter. -/
def ExecutionUnits.setAvail (e : ExecutionUnits) : ExecUnit → Nat → ExecutionUnits
  | ALU_UNIT, n => { e with alu := n }
  | FPU_UNIT, n => { e with fpu := n }
  | MEM_UNIT, n => { e with mem := n }
  | BRANCH_UNIT, n => { e with branch := n }
  | ANY_UNIT, _ => e

/-- The `ExecutionUnits()` constructor: `available = capacity`. -/
def initExecutionUnits : ExecutionUnits := ⟨2, 1, 1, 1⟩

/-- Method `ExecutionUnits::isAvailable`, that is `available.count(unit) ? available[unit] > 0 : false`;
`ANY_UNIT` is not a key, so it is never available. -/
def ExecutionUnits.isAvailable (e : ExecutionUnits) (unit : ExecUnit) : Bool :=
  match unit with
  | ANY_UNIT => false
  | u => e.availOf u > 0

/-- Method `ExecutionUnits::allocate`: decrement on success; the pool is unchanged on
failure. Returns the updated pool with the C++ return value. -/
def ExecutionUnits.allocate (e : ExecutionUnits) (unit : ExecUnit) :
    ExecutionUnits × Bool :=
  if e.isAvailable unit then (e.setAvail unit (e.availOf unit - 1), true)
  else (e, false)

/-- Method `ExecutionUnits::release`: increment only below capacity, and only for a
unit that is a key of `available` (so never `ANY_UNIT`). -/
def ExecutionUnits.release (e : ExecutionUnits) (unit : ExecUnit) : ExecutionUnits :=
  match unit with
  | ANY_UNIT => e
  | u => if e.availOf u < capacityOf u then e.setAvail u (e.availOf u + 1) else e

/-- Method `ExecutionUnits::reset`. Never called inside the fixed variant's loop. -/
def ExecutionUnits.reset (_ : ExecutionUnits) : ExecutionUnits := initExecutionUnits

/-- The source's `struct Statistics` (it spells one field `waw_hazords`); `ipc` is
the exact rational the `calculate()` division produces. -/
structure Statistics where
  total_cycles : Nat
  instructions_completed : Nat
  total_stalls : Nat
  raw_hazards : Nat
  war_hazards : Nat
  waw_hazords : Nat
  structural_hazards : Nat
  branch_mispredictions : Nat
  ipc : ℚ
deriving DecidableEq, Repr

/-- The `Statistics()` constructor. -/
def initStatistics : Statistics :=
  { total_cycles := 0, instructions_completed := 0, total_stalls := 0,
    raw_hazards := 0, war_hazards := 0, waw_hazords := 0,
    structural_hazards := 0, branch_mispredictions := 0, ipc := 0 }

/-- Method `Statistics::calculate`. -/
def Statistics.calculate (s : Statistics) : Statistics :=
  { s with ipc := if s.total_cycles > 0 then
      (s.instructions_completed : ℚ) / (s.total_cycles : ℚ) else 0 }

/-- The source's `detectHazards`: RAW on `src1`, else RAW on `src2`, else the
structural check; returns the C++ boolean with the updated slot state and
statistics counters. -/
def detectHazards (instr : Instruction) (state : PipelineState)
    (scoreboard : RegisterScoreboard) (units : ExecutionUnits) (cycle : Int)
    (stats : Statistics) : Bool × PipelineState × Statistics :=
  let (hazard, reason, stats) :=
    if scoreboard.isBusy instr.src1 cycle then
      (true,
       "RAW on R" ++ toString instr.src1 ++ " (writer: I" ++
         toString (scoreboard.getWriter instr.src1) ++ ")",
       { stats with raw_hazards := stats.raw_hazards + 1 })
    else if scoreboard.isBusy instr.src2 cycle then
      (true,
       "RAW on R" ++ toString instr.src2 ++ " (writer: I" ++
         toString (scoreboard.getWriter instr.src2) ++ ")",
       { stats with raw_hazards := stats.raw_hazards + 1 })
    else (false, "", stats)
  let required := getExecUnit instr.opcode
  let (hazard, reason, stats) :=
    if !hazard && !units.isAvailable required then
      (true, "Structural - " ++ unitToString required ++ " busy",
       { stats with structural_hazards := stats.structural_hazards + 1 })
    else (hazard, reason, stats)
  if hazard then
    (false, { state with stalled := true, stall_reason := reason },
     { stats with total_stalls := stats.total_stalls + 1 })
  else
    (true, { state with stalled := false, stall_reason := "" }, stats)

/-- Whitespace tokenization worker: `acc` holds the current token reversed. -/
def tokensOfAux : List Char → List Char → List String
  | [], acc => if acc = [] then [] else [String.mk acc.reverse]
  | c :: cs, acc =>
      if isCppSpace c then
        if acc = [] then tokensOfAux cs []
        else String.mk acc.reverse :: tokensOfAux cs []
      else tokensOfAux cs (c :: acc)

/-- Whitespace tokenization, as repeated `iss >> str` extraction produces it. -/
def tokensOf (line : String) : List String := tokensOfAux line.data []

/-- The `n`-th operand token after the mnemonic; a missing token leaves the
C++ string empty. -/
def tokOf (args : List String) (n : Nat) : String := args.getD n ""

/-- The per-line operand parsing of `loadInstructionsFromString`, given the
mnemonic's opcode and the remaining tokens. `none` models the uncaught
`std::stoi` exception on a bad branch target (the program aborts). -/
def buildInstruction (id : Int) (opcode : Opcode) (args : List String)
    (line : String) : Option Instruction :=
  match opcode with
  | LOAD =>
      some ⟨id, opcode, parseRegister (tokOf args 1), -1,
        parseRegister (tokOf args 0), false, 0, line⟩
  | STORE =>
      some ⟨id, opcode, parseRegister (tokOf args 1), -1,
        parseRegister (tokOf args 0), false, 0, line⟩
  | BEQ =>
      (cppStoi (tokOf args 2)).map fun bt =>
        ⟨id, opcode, parseRegister (tokOf args 0), parseRegister (tokOf args 1),
          -1, true, bt, line⟩
  | BNE =>
      (cppStoi (tokOf args 2)).map fun bt =>
        ⟨id, opcode, parseRegister (tokOf args 0), parseRegister (tokOf args 1),
          -1, true, bt, line⟩
  | JMP =>
      (cppStoi (tokOf args 0)).map fun bt =>
        ⟨id, opcode, -1, -1, -1, true, bt, line⟩
  | _ =>
      some ⟨id, opcode, parseRegister (tokOf args 1), parseRegister (tokOf args 2),
        parseRegister (tokOf args 0), false, 0, line⟩

/-- The loop body of `loadInstructionsFromString`, carrying the next id. -/
def loadAux : Int → List String → Option (List Instruction)
  | _, [] => some []
  | id, line :: rest =>
      if line = "" ∨ line.data.head? = some '#' then loadAux id rest
      else
        match tokensOf line with
        | [] => loadAux id rest
        | opcode_str :: args =>
            match buildInstruction id (stringToOpcode opcode_str) args line with
            | none => none
            | some instr => (loadAux (id + 1) rest).map (fun l => instr :: l)

/-- The source's `loadInstructionsFromString`: ids are assigned 1, 2, … in input order. -/
def loadInstructionsFromString (instruction_strings : List String) :
    Option (List Instruction) :=
  loadAux 1 instruction_strings

/-- A slot of the engine: the instruction with its mutable pipeline state. -/
abbrev Slot := Instruction × PipelineState

/-- The whole mutable state of `main`'s simulation loop. -/
structure SimState where
  slots : List Slot
  scoreboard : RegisterScoreboard
  exec_units : ExecutionUnits
  stats : Statistics
  cycle : Nat
  completed : Nat
deriving DecidableEq, Repr

/-- The fixed variant's `MAX_CYCLES`. -/
def MAX_CYCLES : Nat := 500

/-- The state just before the simulation loop starts. -/
def initState (instructions : List Instruction) : SimState :=
  { slots := instructions.map (fun i => (i, initPipelineState)),
    scoreboard := initScoreboard, exec_units := initExecutionUnits,
    stats := initStatistics, cycle := 0, completed := 0 }

/-- The WriteBack pass: every `WRITEBACK` slot clears its destination in the
scoreboard, releases its unit (unless `ANY_UNIT`), becomes `COMPLETE` with
`complete_cycle = cycle`, and bumps `completed`. -/
def writebackPass (cycle : Int) :
    List Slot → RegisterScoreboard → ExecutionUnits → Nat →
      List Slot × RegisterScoreboard × ExecutionUnits × Nat
  | [], sb, units, completed => ([], sb, units, completed)
  | (instr, st) :: rest, sb, units, completed =>
      if st.current_stage = WRITEBACK then
        let sb2 := sb.clearBusy instr.dest
        let units2 := if st.assigned_unit ≠ ANY_UNIT then units.release st.assigned_unit
          else units
        let st2 := { st with current_stage := COMPLETE, complete_cycle := cycle }
        let r := writebackPass cycle rest sb2 units2 (completed + 1)
        ((instr, st2) :: r.1, r.2)
      else
        let r := writebackPass cycle rest sb units completed
        ((instr, st) :: r.1, r.2)

/-- One slot of the Execute pass. -/
def executeStep (p : Slot) : Slot :=
  if p.2.current_stage = EXECUTE then
    let c := p.2.cycles_in_stage + 1
    if getLatency p.1.opcode ≤ c then
      (p.1, { p.2 with current_stage := WRITEBACK, cycles_in_stage := 0 })
    else (p.1, { p.2 with cycles_in_stage := c })
  else p

/-- The Execute pass. -/
def executePass (slots : List Slot) : List Slot := slots.map executeStep

/-- The Issue pass (sequential): an `ISSUE` slot that gets its unit moves to
`EXECUTE`, records `issue_cycle`, and marks its destination busy until
`cycle + latency`. -/
def issuePass (cycle : Nat) :
    List Slot → RegisterScoreboard → ExecutionUnits →
      List Slot × RegisterScoreboard × ExecutionUnits
  | [], sb, units => ([], sb, units)
  | (instr, st) :: rest, sb, units =>
      if st.current_stage = ISSUE then
        let unit := getExecUnit instr.opcode
        let a := units.allocate unit
        if a.2 then
          let st2 := { st with
            current_stage := EXECUTE, assigned_unit := unit,
            cycles_in_stage := 0, issue_cycle := (cycle : Int) }
          let sb2 := sb.markBusy instr.dest instr.id ((cycle : Int) + getLatency instr.opcode)
          let r := issuePass cycle rest sb2 a.1
          ((instr, st2) :: r.1, r.2)
        else
          let r := issuePass cycle rest sb a.1
          ((instr, st) :: r.1, r.2)
      else
        let r := issuePass cycle rest sb units
        ((instr, st) :: r.1, r.2)

/-- One slot of the Decode pass: run `detectHazards`, and promote to `ISSUE`
when it reports no hazard. -/
def decodeStep (cycle : Int) (sb : RegisterScoreboard) (units : ExecutionUnits)
    (p : Slot) (stats : Statistics) : Slot × Statistics :=
  if p.2.current_stage = DECODE then
    let (ok, st, stats) := detectHazards p.1 p.2 sb units cycle stats
    if ok then ((p.1, { st with current_stage := ISSUE }), stats)
    else ((p.1, st), stats)
  else (p, stats)

/-- The Decode pass (sequential; the scoreboard and unit pool are only read). -/
def decodePass (cycle : Int) (sb : RegisterScoreboard) (units : ExecutionUnits) :
    List Slot → Statistics → List Slot × Statistics
  | [], stats => ([], stats)
  | p :: rest, stats =>
      let q := decodeStep cycle sb units p stats
      let r := decodePass cycle sb units rest q.2
      (q.1 :: r.1, r.2)

/-- One slot of the Fetch pass: `FETCH → DECODE`, `IDLE → FETCH`. -/
def fetchStep (p : Slot) : Slot :=
  if p.2.current_stage = FETCH then
    (p.1, { p.2 with current_stage := DECODE, cycles_in_stage := 0 })
  else if p.2.current_stage = IDLE then
    (p.1, { p.2 with current_stage := FETCH })
  else p

/-- The Fetch pass. -/
def fetchPass (slots : List Slot) : List Slot := slots.map fetchStep

/-- One slot of the accounting sweep: active slots age by one cycle. -/
def accountStep (p : Slot) : Slot :=
  if p.2.current_stage ≠ IDLE ∧ p.2.current_stage ≠ COMPLETE then
    (p.1, { p.2 with total_cycles := p.2.total_cycles + 1 })
  else p

/-- The accounting sweep. -/
def accountPass (slots : List Slot) : List Slot := slots.map accountStep

/-- One iteration of the fixed variant's simulation loop: `cycle++`, then the
WriteBack, Execute, Issue, Decode, Fetch and accounting passes, in that order
(`exec_units` is never reset here). -/
def runCycle (s : SimState) : SimState :=
  let cycle := s.cycle + 1
  let w := writebackPass (cycle : Int) s.slots s.scoreboard s.exec_units s.completed
  let iss := issuePass cycle (executePass w.1) w.2.1 w.2.2.1
  let dec := decodePass (cycle : Int) iss.2.1 iss.2.2 iss.1 s.stats
  { slots := accountPass (fetchPass dec.1), scoreboard := iss.2.1,
    exec_units := iss.2.2, stats := dec.2, cycle := cycle, completed := w.2.2.2 }

/-- The loop condition `completed < instructions.size() && cycle < MAX_CYCLES`. -/
def loopGuard (s : SimState) : Bool :=
  s.completed < s.slots.length && s.cycle < MAX_CYCLES

/-- The simulation loop, driven by fuel; `MAX_CYCLES` fuel always suffices
because `cycle` grows by one per iteration. -/
def simLoop : Nat → SimState → SimState
  | 0, s => s
  | fuel + 1, s => if loopGuard s then simLoop fuel (runCycle s) else s

/-- One guarded loop iteration: advance a cycle while the loop condition
holds, else stay put. -/
def guardedStep (s : SimState) : SimState :=
  if loopGuard s then runCycle s else s

/-- The guarded loop body, iterated: the state at the end of the `k`-th cycle
of the simulation (the state stops changing once the loop has ended). -/
def stepN (instructions : List Instruction) (k : Nat) : SimState :=
  guardedStep^[k] (initState instructions)

/-- Run the whole simulation loop of `main`. -/
def simulate (instructions : List Instruction) : SimState :=
  simLoop MAX_CYCLES (initState instructions)

/-- The statistics `main` reports after the loop
(`stats.total_cycles = cycle; stats.instructions_completed = completed; calculate()`). -/
def finalStats (s : SimState) : Statistics :=
  Statistics.calculate
    { s.stats with total_cycles := s.cycle, instructions_completed := s.completed }

/-- End-to-end: parse the input lines and simulate (`main` errors out instead
of simulating when no instruction was loaded). -/
def runProgram (lines : List String) : Option (Statistics × List Slot) :=
  match loadInstructionsFromString lines with
  | none => none
  | some [] => none
  | some instructions =>
      let s := simulate instructions
      some (finalStats s, s.slots)

/-- The slot-local effect of the WriteBack pass (the scoreboard, pool and
counter effects are threaded separately). -/
def wbStep (cycle : Int) (p : Slot) : Slot :=
  if p.2.current_stage = WRITEBACK then
    (p.1, { p.2 with current_stage := COMPLETE, complete_cycle := cycle })
  else p

/-- The slot-local effect of the Decode pass (the statistics a decode step
returns do not influence the slot it returns). -/
def decodeSlot (cycle : Int) (sb : RegisterScoreboard) (units : ExecutionUnits)
    (p : Slot) : Slot :=
  (decodeStep cycle sb units p initStatistics).1

/-- The slot state the Issue pass writes on a successful allocation. -/
def issuedState (cycle : Nat) (unit : ExecUnit) (st : PipelineState) : PipelineState :=
  { st with
    current_stage := EXECUTE, assigned_unit := unit,
    cycles_in_stage := 0, issue_cycle := (cycle : Int) }

/-- Does slot `p` hold unit `u` in EXECUTE or WRITEBACK? -/
def ewP (u : ExecUnit) (p : Slot) : Bool :=
  decide (p.2.assigned_unit = u ∧
    (p.2.current_stage = EXECUTE ∨ p.2.current_stage = WRITEBACK))

/-- How many slots hold unit `u` in EXECUTE or WRITEBACK (invariant P2's count). -/
def inflight (u : ExecUnit) (slots : List Slot) : Nat :=
  slots.countP (ewP u)

/-- How many slots are COMPLETE. -/
def countComplete (slots : List Slot) : Nat :=
  slots.countP fun p => decide (p.2.current_stage = COMPLETE)

/-- How many slots are in WRITEBACK. -/
def countWB (slots : List Slot) : Nat :=
  slots.countP fun p => decide (p.2.current_stage = WRITEBACK)

/-- A slot that is not COMPLETE has not recorded a completion cycle. -/
def slotCC (p : Slot) : Prop := p.2.current_stage ≠ COMPLETE → p.2.complete_cycle = -1

/-- The coupling of the unit pool with the in-flight counts: what is not
available is exactly what is held by EXECUTE/WRITEBACK slots. -/
def unitsInv (s : SimState) : Prop :=
  ∀ u : ExecUnit, u ≠ ANY_UNIT →
    s.exec_units.availOf u + inflight u s.slots = capacityOf u

/-- The one-instruction program of test scenario "NOP". -/
def nopProg : List Instruction := [⟨1, NOP, -1, -1, -1, false, 0, "NOP"⟩]

/-- Program `DIV R1 R2 R3` followed by `ADD R4 R1 R5`: instruction 2 reads the
register instruction 1 writes. -/
def divAddProg : List Instruction :=
  [⟨1, DIV, 2, 3, 1, false, 0, "DIV R1 R2 R3"⟩,
   ⟨2, ADD, 1, 5, 4, false, 0, "ADD R4 R1 R5"⟩]

/-- The two-instruction program of test scenario "Two independent ALU ops". -/
def addSubProg : List Instruction :=
  [⟨1, ADD, 2, 3, 1, false, 0, "ADD R1 R2 R3"⟩,
   ⟨2, SUB, 5, 6, 4, false, 0, "SUB R4 R5 R6"⟩]

/-- Lemma putting `detectHazards` in if-chain normal form: the RAW check on `src1` wins, the
RAW check on `src2` runs only when `src1` is clear, and the structural check
only when neither RAW fired. -/
lemma detectHazards_eq (instr : Instruction) (st : PipelineState)
    (sb : RegisterScoreboard) (units : ExecutionUnits) (cycle : Int)
    (stats : Statistics) :
    detectHazards instr st sb units cycle stats =
    if sb.isBusy instr.src1 cycle then
      (false,
       { st with stalled := true, stall_reason := "RAW on R" ++ toString instr.src1 ++
           " (writer: I" ++ toString (sb.getWriter instr.src1) ++ ")" },
       { stats with raw_hazards := stats.raw_hazards + 1,
                    total_stalls := stats.total_stalls + 1 })
    else if sb.isBusy instr.src2 cycle then
      (false,
       { st with stalled := true, stall_reason := "RAW on R" ++ toString instr.src2 ++
           " (writer: I" ++ toString (sb.getWriter instr.src2) ++ ")" },
       { stats with raw_hazards := stats.raw_hazards + 1,
                    total_stalls := stats.total_stalls + 1 })
    else if !units.isAvailable (getExecUnit instr.opcode) then
      (false,
       { st with stalled := true, stall_reason := "Structural - " ++
           unitToString (getExecUnit instr.opcode) ++ " busy" },
       { stats with structural_hazards := stats.structural_hazards + 1,
                    total_stalls := stats.total_stalls + 1 })
    else (true, { st with stalled := false, stall_reason := "" }, stats) := by
  cases hb1 : sb.isBusy instr.src1 cycle <;>
    cases hb2 : sb.isBusy instr.src2 cycle <;>
      cases hav : units.isAvailable (getExecUnit instr.opcode) <;>
        simp [detectHazards, hb1, hb2, hav]

/-- C7: the hazard detector checks RAW on src1 first, RAW on src2 only when
src1 raised none, the structural condition only when neither RAW fired; it
returns false exactly when some hazard fired, and then sets `stalled` with the
matching reason, bumps the matching hazard counter and `total_stalls`, while
the decode pass keeps the slot in DECODE on a hazard and promotes it to ISSUE
otherwise. -/
theorem detectHazards_spec (instr : Instruction) (st : PipelineState)
    (sb : RegisterScoreboard) (units : ExecutionUnits) (cycle : Int)
    (stats : Statistics) :
    ((detectHazards instr st sb units cycle stats).1 = true ↔
      (sb.isBusy instr.src1 cycle = false ∧ sb.isBusy instr.src2 cycle = false ∧
        units.isAvailable (getExecUnit instr.opcode) = true)) ∧
    (sb.isBusy instr.src1 cycle = true →
      (detectHazards instr st sb units cycle stats).2.2.raw_hazards = stats.raw_hazards + 1 ∧
      (detectHazards instr st sb units cycle stats).2.1.stall_reason =
        "RAW on R" ++ toString instr.src1 ++ " (writer: I" ++
          toString (sb.getWriter instr.src1) ++ ")" ∧
      (detectHazards instr st sb units cycle stats).2.2.structural_hazards =
        stats.structural_hazards) ∧
    (sb.isBusy instr.src1 cycle = false → sb.isBusy instr.src2 cycle = true →
      (detectHazards instr st sb units cycle stats).2.2.raw_hazards = stats.raw_hazards + 1 ∧
      (detectHazards instr st sb units cycle stats).2.1.stall_reason =
        "RAW on R" ++ toString instr.src2 ++ " (writer: I" ++
          toString (sb.getWriter instr.src2) ++ ")" ∧
      (detectHazards instr st sb units cycle stats).2.2.structural_hazards =
        stats.structural_hazards) ∧
    (sb.isBusy instr.src1 cycle = false → sb.isBusy instr.src2 cycle = false →
      units.isAvailable (getExecUnit instr.opcode) = false →
      (detectHazards instr st sb units cycle stats).2.2.structural_hazards =
        stats.structural_hazards + 1 ∧
      (detectHazards instr st sb units cycle stats).2.1.stall_reason =
        "Structural - " ++ unitToString (getExecUnit instr.opcode) ++ " busy" ∧
      (detectHazards instr st sb units cycle stats).2.2.raw_hazards = stats.raw_hazards) ∧
    ((detectHazards instr st sb units cycle stats).1 = false →
      (detectHazards instr st sb units cycle stats).2.1.stalled = true ∧
      (detectHazards instr st sb units cycle stats).2.2.total_stalls = stats.total_stalls + 1) ∧
    ((detectHazards instr st sb units cycle stats).1 = true →
      (detectHazards instr st sb units cycle stats).2.1.stalled = false ∧
      (detectHazards instr st sb units cycle stats).2.1.stall_reason = "" ∧
      (detectHazards instr st sb units cycle stats).2.2 = stats) ∧
    (st.current_stage = DECODE →
      (decodeStep cycle sb units (instr, st) stats).1.2.current_stage =
        (if (detectHazards instr st sb units cycle stats).1 then ISSUE else DECODE)) := by
  cases hb1 : sb.isBusy instr.src1 cycle <;>
    cases hb2 : sb.isBusy instr.src2 cycle <;>
      cases hav : units.isAvailable (getExecUnit instr.opcode) <;>
        simp [detectHazards_eq, decodeStep, hb1, hb2, hav] <;>
          intro hd <;> simp [hd]

/-- C8: `isBusy` is true exactly for a valid index whose entry is busy with
`ready_cycle` strictly beyond the current cycle; an entry ready this very
cycle counts as available, and any out-of-range register is never busy and
has writer `-1`. -/
theorem isBusy_spec (sb : RegisterScoreboard) (r c : Int) :
    (sb.isBusy r c = true ↔
      0 ≤ r ∧ r < 32 ∧ (sb.entry r).busy = true ∧ c < (sb.entry r).ready_cycle) ∧
    ((sb.entry r).ready_cycle = c → sb.isBusy r c = false) ∧
    ((r < 0 ∨ 32 ≤ r) → sb.isBusy r c = false ∧ sb.getWriter r = -1) := by
  unfold RegisterScoreboard.isBusy RegisterScoreboard.getWriter numRegisters
  refine ⟨?_, ?_, ?_⟩
  · split_ifs with h
    · simp only [Bool.false_eq_true, false_iff]
      intro ⟨h1, h2, _, _⟩
      omega
    · push_neg at h
      simp [Bool.and_eq_true, decide_eq_true_eq, h.1, h.2]
      omega
  · intro hrc
    split_ifs with h
    · rfl
    · simp [hrc]
  · intro h
    constructor
    · split_ifs with h2
      · rfl
      · push_neg at h2
        omega
    · split_ifs with h2
      · omega
      · rfl

/-- C10: every scoreboard operation on a register index ≥ 32 is an in-bounds
no-op — `markBusy` changes nothing, `isBusy` is false, `getWriter` is `-1` —
so the hazard detector never reports a RAW hazard through such an operand and
its verdict is exactly the structural availability of the required unit. -/
theorem scoreboard_out_of_range (sb : RegisterScoreboard) (r instr_id ready c : Int)
    (instr : Instruction) (st : PipelineState) (units : ExecutionUnits)
    (stats : Statistics) (hr : 32 ≤ r) (h1 : instr.src1 = r) (h2 : instr.src2 = r) :
    sb.markBusy r instr_id ready = sb ∧
    sb.isBusy r c = false ∧
    sb.getWriter r = -1 ∧
    (detectHazards instr st sb units c stats).2.2.raw_hazards = stats.raw_hazards ∧
    (detectHazards instr st sb units c stats).1 =
      units.isAvailable (getExecUnit instr.opcode) := by
  have hb : sb.isBusy r c = false := by
    unfold RegisterScoreboard.isBusy numRegisters
    split_ifs with h
    · rfl
    · push_neg at h
      omega
  refine ⟨?_, hb, ?_, ?_, ?_⟩
  · unfold RegisterScoreboard.markBusy numRegisters
    split_ifs with h
    · omega
    · rfl
  · unfold RegisterScoreboard.getWriter numRegisters
    split_ifs with h
    · omega
    · rfl
  · rw [detectHazards_eq]
    simp [h1, h2, hb]
    split_ifs <;> simp
  · rw [detectHazards_eq]
    simp [h1, h2, hb]
    cases hav : units.isAvailable (getExecUnit instr.opcode) <;> simp [hav]

/-- C10 witness: `parseRegister` accepts `R40`, and with register 40 the
scoreboard operations are no-ops, concretely. -/
theorem scoreboard_out_of_range_witness :
    initScoreboard.markBusy 40 1 9 = initScoreboard ∧
    initScoreboard.isBusy 40 3 = false ∧
    initScoreboard.getWriter 40 = -1 ∧
    (detectHazards ⟨1, ADD, 40, 40, 40, false, 0, "ADD R40 R40 R40"⟩ initPipelineState
        initScoreboard initExecutionUnits 3 initStatistics).2.2.raw_hazards =
      initStatistics.raw_hazards ∧
    (detectHazards ⟨1, ADD, 40, 40, 40, false, 0, "ADD R40 R40 R40"⟩ initPipelineState
        initScoreboard initExecutionUnits 3 initStatistics).1 =
      initExecutionUnits.isAvailable
        (getExecUnit (⟨1, ADD, 40, 40, 40, false, 0, "ADD R40 R40 R40"⟩ : Instruction).opcode) :=
  scoreboard_out_of_range initScoreboard 40 1 9 3 _ initPipelineState initExecutionUnits
    initStatistics (by decide) rfl rfl

/-- C1: the program `NOP` never completes — `getExecUnit NOP = ANY_UNIT` has
no pool entry, so the slot stalls in DECODE on `Structural - ANY busy` every
cycle until `MAX_CYCLES`, with 0 instructions completed and 498 structural
hazards, contradicting the spec scenario "completes in minimum pipeline
depth; no hazards". -/
theorem nop_never_completes :
    loadInstructionsFromString ["NOP"] = some nopProg ∧
    (simulate nopProg).completed = 0 ∧
    (simulate nopProg).cycle = 500 ∧
    (simulate nopProg).stats.structural_hazards = 498 ∧
    (simulate nopProg).stats.total_stalls = 498 ∧
    (simulate nopProg).stats.raw_hazards = 0 ∧
    (simulate nopProg).slots.map
        (fun p => (p.2.current_stage, p.2.stalled, p.2.stall_reason, p.2.complete_cycle)) =
      [(DECODE, true, "Structural - ANY busy", -1)] := by
  decide

/-- C4: on `DIV R1 R2 R3; ADD R4 R1 R5` both instructions pass decode in the
same cycle before either has issued, so no RAW hazard is recorded and the
reader issues at cycle 4, far below the writer's `issue_cycle + latency = 12`:
P5 fails on the code. -/
theorem raw_hazard_missed :
    loadInstructionsFromString ["DIV R1 R2 R3", "ADD R4 R1 R5"] = some divAddProg ∧
    (simulate divAddProg).slots.map
        (fun p => (p.1.dest, p.1.src1, p.2.issue_cycle, p.2.complete_cycle, p.2.current_stage)) =
      [(1, 2, 4, 13, COMPLETE), (4, 1, 4, 6, COMPLETE)] ∧
    (simulate divAddProg).stats.raw_hazards = 0 ∧
    getLatency DIV = 8 ∧
    ¬((4 : Int) ≥ 4 + (getLatency DIV : Int)) := by
  decide

/-- C5 counterexample: the two independent ALU ops finish in 6 cycles, not 5,
so the claimed `totalCycles == 5` and `ipc == 0.4` are false on the code. -/
theorem two_alu_ops_cex :
    loadInstructionsFromString ["ADD R1 R2 R3", "SUB R4 R5 R6"] = some addSubProg ∧
    (finalStats (simulate addSubProg)).total_cycles = 6 ∧
    (finalStats (simulate addSubProg)).total_cycles ≠ 5 ∧
    (finalStats (simulate addSubProg)).ipc ≠ 2 / 5 := by
  have hc : (simulate addSubProg).cycle = 6 := by decide
  have hm : (simulate addSubProg).completed = 2 := by decide
  have hipc : (finalStats (simulate addSubProg)).ipc = 1 / 3 := by
    simp [finalStats, Statistics.calculate, hc, hm]
    norm_num
  refine ⟨by decide, ?_, ?_, ?_⟩
  · simp [finalStats, Statistics.calculate, hc]
  · simp [finalStats, Statistics.calculate, hc]
  · rw [hipc]
    norm_num

/-- C5 as amended: both ALU ops complete with no hazards and no stalls, in
`totalCycles = 6` with `ipc = 1/3` (fetch at cycle 1, decode at 2, promoted
to ISSUE at 3, issued at 4, writeback at 5, complete at 6). -/
theorem two_alu_ops_stats :
    loadInstructionsFromString ["ADD R1 R2 R3", "SUB R4 R5 R6"] = some addSubProg ∧
    (finalStats (simulate addSubProg)).instructions_completed = 2 ∧
    (finalStats (simulate addSubProg)).raw_hazards = 0 ∧
    (finalStats (simulate addSubProg)).structural_hazards = 0 ∧
    (finalStats (simulate addSubProg)).total_stalls = 0 ∧
    (finalStats (simulate addSubProg)).total_cycles = 6 ∧
    (finalStats (simulate addSubProg)).ipc = 1 / 3 ∧
    (simulate addSubProg).slots.map (fun p => p.2.current_stage) =
      [COMPLETE, COMPLETE] := by
  have hc : (simulate addSubProg).cycle = 6 := by decide
  have hm : (simulate addSubProg).completed = 2 := by decide
  refine ⟨by decide, ?_, by decide, by decide, by decide, ?_, ?_, by decide⟩
  · simp [finalStats, Statistics.calculate, hm]
  · simp [finalStats, Statistics.calculate, hc]
  · simp [finalStats, Statistics.calculate, hc, hm]
    norm_num

/-- C6 counterexample: the line `XYZ` matches no grammar of §6, yet it is not
skipped — it becomes a NOP-opcode instruction with id 1 that then runs (and,
like every NOP, jams the pipeline for all 500 cycles). -/
theorem unknown_line_not_skipped_cex :
    loadInstructionsFromString ["XYZ"] =
      some [⟨1, NOP, -1, -1, -1, false, 0, "XYZ"⟩] ∧
    loadInstructionsFromString ["XYZ"] ≠ some [] ∧
    (simulate [⟨1, NOP, -1, -1, -1, false, 0, "XYZ"⟩]).stats.structural_hazards = 498 ∧
    (simulate [⟨1, NOP, -1, -1, -1, false, 0, "XYZ"⟩]).cycle = 500 := by
  decide

/-- C6 as amended: only empty lines, lines starting with `#`, and
whitespace-only lines are silently skipped (no record, no id); a line whose
first token is not a known mnemonic is parsed as a `NOP` instruction — three
operand tokens read as registers — which receives the next id and enters the
simulation. -/
theorem line_parsing_amended (id : Int) (line : String) (rest : List String)
    (t : String) (ts : List String) :
    ((line = "" ∨ line.data.head? = some '#') →
      loadAux id (line :: rest) = loadAux id rest) ∧
    (tokensOf line = [] → loadAux id (line :: rest) = loadAux id rest) ∧
    (¬(line = "" ∨ line.data.head? = some '#') → tokensOf line = t :: ts →
      stringToOpcode t = NOP →
      loadAux id (line :: rest) = (loadAux (id + 1) rest).map
        (fun l => (⟨id, NOP, parseRegister (tokOf ts 1), parseRegister (tokOf ts 2),
          parseRegister (tokOf ts 0), false, 0, line⟩ : Instruction) :: l)) := by
  refine ⟨?_, ?_, ?_⟩
  · intro h
    simp [loadAux, h]
  · intro h
    by_cases hskip : line = "" ∨ line.data.head? = some '#'
    · simp [loadAux, hskip]
    · simp [loadAux, hskip, h]
  · intro hskip htok hop
    simp [loadAux, hskip, htok, hop, buildInstruction]

end Pipeline
namespace Pipeline
open Opcode ExecUnit Stage

lemma writebackPass_fst (c : Int) :
    ∀ (slots : List Slot) (sb : RegisterScoreboard) (units : ExecutionUnits) (comp : Nat),
      (writebackPass c slots sb units comp).1 = slots.map (wbStep c)
  | [], _, _, _ => rfl
  | (instr, st) :: rest, sb, units, comp => by
      by_cases h : st.current_stage = WRITEBACK <;>
        simp [writebackPass, wbStep, h, writebackPass_fst c rest]

lemma decodeStep_fst_stats (c : Int) (sb : RegisterScoreboard) (units : ExecutionUnits)
    (p : Slot) (s1 s2 : Statistics) :
    (decodeStep c sb units p s1).1 = (decodeStep c sb units p s2).1 := by
  by_cases h : p.2.current_stage = DECODE
  · simp only [decodeStep, detectHazards_eq, h, if_true]
    split_ifs <;> rfl
  · simp [decodeStep, h]

lemma decodePass_fst (c : Int) (sb : RegisterScoreboard) (units : ExecutionUnits) :
    ∀ (slots : List Slot) (stats : Statistics),
      (decodePass c sb units slots stats).1 = slots.map (decodeSlot c sb units)
  | [], _ => rfl
  | p :: rest, stats => by
      show (decodeStep c sb units p stats).1 ::
          (decodePass c sb units rest (decodeStep c sb units p stats).2).1 =
        decodeSlot c sb units p :: rest.map (decodeSlot c sb units)
      rw [decodePass_fst c sb units rest,
        decodeStep_fst_stats c sb units p stats initStatistics]
      rfl

lemma issuePass_length (c : Nat) :
    ∀ (slots : List Slot) (sb : RegisterScoreboard) (units : ExecutionUnits),
      (issuePass c slots sb units).1.length = slots.length
  | [], _, _ => rfl
  | (instr, st) :: rest, sb, units => by
      by_cases h : st.current_stage = ISSUE
      · by_cases h2 : (units.allocate (getExecUnit instr.opcode)).2 <;>
          simp [issuePass, h, h2, issuePass_length c rest]
      · simp [issuePass, h, issuePass_length c rest]

lemma runCycle_cycle (s : SimState) : (runCycle s).cycle = s.cycle + 1 := rfl

lemma runCycle_slots_length (s : SimState) :
    (runCycle s).slots.length = s.slots.length := by
  simp [runCycle, accountPass, fetchPass, executePass, decodePass_fst,
    issuePass_length, writebackPass_fst]

end Pipeline
namespace Pipeline
open Opcode ExecUnit Stage

lemma issuePass_getElem?_untouched (c : Nat) :
    ∀ (slots : List Slot) (sb : RegisterScoreboard) (units : ExecutionUnits)
      (i : Nat) (p : Slot), slots[i]? = some p → p.2.current_stage ≠ ISSUE →
      (issuePass c slots sb units).1[i]? = some p
  | [], _, _, i, p => by simp
  | (instr, st) :: rest, sb, units, 0, p => by
      intro hp hstage
      simp at hp
      subst hp
      by_cases h : st.current_stage = ISSUE
      · exact absurd h hstage
      · simp [issuePass, h]
  | (instr, st) :: rest, sb, units, i + 1, p => by
      intro hp hstage
      simp at hp
      by_cases h : st.current_stage = ISSUE
      · by_cases h2 : (units.allocate (getExecUnit instr.opcode)).2 <;>
          · simp only [issuePass, h, if_true, h2]
            simpa using issuePass_getElem?_untouched c rest _ _ i p hp hstage
      · simp only [issuePass, h, if_false]
        simpa using issuePass_getElem?_untouched c rest _ _ i p hp hstage

end Pipeline
namespace Pipeline
open Opcode ExecUnit Stage

lemma runCycle_slots_untouched (s : SimState) (i : Nat) (p : Slot)
    (hp : s.slots[i]? = some p)
    (hn1 : p.2.current_stage ≠ WRITEBACK) (hn2 : p.2.current_stage ≠ EXECUTE)
    (hn3 : p.2.current_stage ≠ ISSUE) (hn4 : p.2.current_stage ≠ DECODE) :
    (runCycle s).slots[i]? = some (accountStep (fetchStep p)) := by
  have h1 : (writebackPass ((s.cycle + 1 : Nat) : Int) s.slots s.scoreboard
      s.exec_units s.completed).1[i]? = some p := by
    rw [writebackPass_fst, List.getElem?_map, hp]
    simp [wbStep, hn1]
  have h2 : (executePass (writebackPass ((s.cycle + 1 : Nat) : Int) s.slots s.scoreboard
      s.exec_units s.completed).1)[i]? = some p := by
    rw [executePass, List.getElem?_map, h1]
    simp [executeStep, hn2]
  have h3 := issuePass_getElem?_untouched (s.cycle + 1) _
    (writebackPass ((s.cycle + 1 : Nat) : Int) s.slots s.scoreboard s.exec_units
      s.completed).2.1
    (writebackPass ((s.cycle + 1 : Nat) : Int) s.slots s.scoreboard s.exec_units
      s.completed).2.2.1 i p h2 hn3
  show (accountPass (fetchPass (decodePass ((s.cycle + 1 : Nat) : Int) _ _
      (issuePass (s.cycle + 1) _ _ _).1 s.stats).1))[i]? = _
  rw [accountPass, fetchPass, List.getElem?_map, List.getElem?_map, decodePass_fst,
    List.getElem?_map, h3]
  simp [decodeSlot, decodeStep, hn4]

/-- C9: within one cycle no slot advances more than one stage, because the
passes run in the order WRITEBACK, EXECUTE, ISSUE, DECODE, FETCH: a slot in
FETCH at the start of a cycle ends that cycle exactly in DECODE (never in
ISSUE or beyond), and a slot in IDLE ends it exactly in FETCH (never in
DECODE before the next cycle). -/
theorem single_stage_advance (s : SimState) (i : Nat) :
    ((s.slots[i]?.map fun p => p.2.current_stage) = some FETCH →
      ((runCycle s).slots[i]?.map fun p => p.2.current_stage) = some DECODE) ∧
    ((s.slots[i]?.map fun p => p.2.current_stage) = some IDLE →
      ((runCycle s).slots[i]?.map fun p => p.2.current_stage) = some FETCH) := by
  constructor
  · intro h
    rw [Option.map_eq_some'] at h
    obtain ⟨p, hp, hstage⟩ := h
    rw [runCycle_slots_untouched s i p hp (by simp [hstage]) (by simp [hstage])
      (by simp [hstage]) (by simp [hstage])]
    simp [accountStep, fetchStep, hstage]
  · intro h
    rw [Option.map_eq_some'] at h
    obtain ⟨p, hp, hstage⟩ := h
    rw [runCycle_slots_untouched s i p hp (by simp [hstage]) (by simp [hstage])
      (by simp [hstage]) (by simp [hstage])]
    simp [accountStep, fetchStep, hstage]

end Pipeline
namespace Pipeline
open Opcode ExecUnit Stage

lemma countP_map_eq (f : Slot → Slot) (q : Slot → Bool) (h : ∀ p, q (f p) = q p) :
    ∀ l : List Slot, (l.map f).countP q = l.countP q := by
  intro l
  induction l with
  | nil => rfl
  | cons p rest ih => simp [List.countP_cons, h, ih]

lemma writebackPass_completed_out (c : Int) :
    ∀ (slots : List Slot) (sb : RegisterScoreboard) (units : ExecutionUnits) (comp : Nat),
      (writebackPass c slots sb units comp).2.2.2 = comp + countWB slots
  | [], _, _, _ => rfl
  | (instr, st) :: rest, sb, units, comp => by
      by_cases h : st.current_stage = WRITEBACK
      all_goals simp only [writebackPass, h, if_true, if_false, countWB, List.countP_cons]
      all_goals rw [writebackPass_completed_out c rest]
      all_goals simp [countWB, h]
      all_goals omega

lemma countComplete_map_wbStep (c : Int) :
    ∀ slots : List Slot,
      countComplete (slots.map (wbStep c)) = countComplete slots + countWB slots
  | [] => rfl
  | p :: rest => by
      by_cases h : p.2.current_stage = WRITEBACK
      all_goals simp only [List.map_cons, countComplete, countWB, List.countP_cons, wbStep, h]
      all_goals have := countComplete_map_wbStep c rest
      all_goals simp only [countComplete, countWB] at this
      all_goals simp [h, this]
      all_goals omega

lemma countComplete_executePass (slots : List Slot) :
    countComplete (executePass slots) = countComplete slots := by
  refine countP_map_eq _ _ (fun p => ?_) slots
  by_cases h : p.2.current_stage = EXECUTE
  · simp only [executeStep, h, if_true]
    split_ifs <;> simp [h]
  · simp [executeStep, h]

lemma countComplete_decodeMap (c : Int) (sb : RegisterScoreboard)
    (units : ExecutionUnits) (slots : List Slot) :
    countComplete (slots.map (decodeSlot c sb units)) = countComplete slots := by
  refine countP_map_eq _ _ (fun p => ?_) slots
  by_cases h : p.2.current_stage = DECODE
  · simp only [decodeSlot, decodeStep, h, if_true, detectHazards_eq]
    split_ifs <;> simp [h]
  · simp [decodeSlot, decodeStep, h]

lemma countComplete_fetchPass (slots : List Slot) :
    countComplete (fetchPass slots) = countComplete slots := by
  refine countP_map_eq _ _ (fun p => ?_) slots
  by_cases h1 : p.2.current_stage = FETCH
  · simp [fetchStep, h1]
  · by_cases h2 : p.2.current_stage = IDLE <;> simp [fetchStep, h1, h2]

lemma countComplete_accountPass (slots : List Slot) :
    countComplete (accountPass slots) = countComplete slots := by
  refine countP_map_eq _ _ (fun p => ?_) slots
  by_cases h : p.2.current_stage ≠ IDLE ∧ p.2.current_stage ≠ COMPLETE <;>
    simp [accountStep, h]

lemma countComplete_issuePass (c : Nat) :
    ∀ (slots : List Slot) (sb : RegisterScoreboard) (units : ExecutionUnits),
      countComplete (issuePass c slots sb units).1 = countComplete slots
  | [], _, _ => rfl
  | (instr, st) :: rest, sb, units => by
      by_cases h : st.current_stage = ISSUE
      · by_cases h2 : (units.allocate (getExecUnit instr.opcode)).2 <;>
          · simp only [issuePass, h, if_true, h2, if_false, countComplete, List.countP_cons]
            have := countComplete_issuePass c rest
            simp only [countComplete] at this
            simp [h, this]
      · simp only [issuePass, h, if_false, countComplete, List.countP_cons]
        have := countComplete_issuePass c rest
        simp only [countComplete] at this
        simp [this]

end Pipeline
namespace Pipeline
open Opcode ExecUnit Stage

lemma runCycle_completed (s : SimState) :
    (runCycle s).completed = s.completed + countWB s.slots := by
  show (writebackPass ((s.cycle + 1 : Nat) : Int) s.slots s.scoreboard s.exec_units
      s.completed).2.2.2 = _
  exact writebackPass_completed_out _ _ _ _ _

lemma runCycle_countComplete (s : SimState) :
    countComplete (runCycle s).slots = countComplete s.slots + countWB s.slots := by
  show countComplete (accountPass (fetchPass (decodePass ((s.cycle + 1 : Nat) : Int) _ _
    (issuePass (s.cycle + 1) (executePass (writebackPass ((s.cycle + 1 : Nat) : Int)
        s.slots s.scoreboard s.exec_units s.completed).1) _ _).1 s.stats).1)) = _
  rw [countComplete_accountPass, countComplete_fetchPass, decodePass_fst,
    countComplete_decodeMap, countComplete_issuePass, countComplete_executePass,
    writebackPass_fst, countComplete_map_wbStep]

lemma runCycle_completed_inv (s : SimState)
    (h : s.completed = countComplete s.slots) :
    (runCycle s).completed = countComplete (runCycle s).slots := by
  rw [runCycle_completed, runCycle_countComplete, h]

lemma countComplete_le_length (slots : List Slot) : countComplete slots ≤ slots.length :=
  List.countP_le_length _

lemma simLoop_inv (P : SimState → Prop) (hP : ∀ s, P s → P (runCycle s)) :
    ∀ (fuel : Nat) (s : SimState), P s → P (simLoop fuel s)
  | 0, _, h => h
  | fuel + 1, s, h => by
      by_cases hg : loopGuard s
      · simp only [simLoop, hg, if_true]
        exact simLoop_inv P hP fuel _ (hP s h)
      · simpa [simLoop, hg] using h

lemma loopGuard_cycle (s : SimState) (h : loopGuard s = true) : s.cycle < MAX_CYCLES := by
  simp only [loopGuard, Bool.and_eq_true, decide_eq_true_eq] at h
  exact h.2

lemma simLoop_cycle_le :
    ∀ (fuel : Nat) (s : SimState), s.cycle ≤ MAX_CYCLES →
      (simLoop fuel s).cycle ≤ MAX_CYCLES
  | 0, _, h => h
  | fuel + 1, s, h => by
      by_cases hg : loopGuard s
      · simp only [simLoop, hg, if_true]
        exact simLoop_cycle_le fuel _ (by
          rw [runCycle_cycle]
          exact loopGuard_cycle s hg)
      · simpa [simLoop, hg] using h

lemma simLoop_guard_false :
    ∀ (fuel : Nat) (s : SimState), MAX_CYCLES ≤ s.cycle + fuel →
      loopGuard (simLoop fuel s) = false
  | 0, s, h => by
      simp only [simLoop]
      simp only [loopGuard, Bool.and_eq_false_iff]
      right
      simp only [decide_eq_false_iff_not, not_lt]
      omega
  | fuel + 1, s, h => by
      by_cases hg : loopGuard s
      · simp only [simLoop, hg, if_true]
        exact simLoop_guard_false fuel _ (by rw [runCycle_cycle]; omega)
      · simp only [simLoop, hg, if_false]
        simpa using hg

end Pipeline
namespace Pipeline
open Opcode ExecUnit Stage

lemma cc_wbStep (c : Int) (p : Slot) (h : slotCC p) : slotCC (wbStep c p) := by
  by_cases hw : p.2.current_stage = WRITEBACK
  · simp [slotCC, wbStep, hw]
  · simpa [slotCC, wbStep, hw] using h

lemma cc_executeStep (p : Slot) (h : slotCC p) : slotCC (executeStep p) := by
  by_cases he : p.2.current_stage = EXECUTE
  · intro _
    simp only [executeStep, he, if_true]
    split_ifs <;> exact h (by simp [he])
  · simpa [executeStep, he] using h

lemma cc_issued (c : Nat) (u : ExecUnit) (instr : Instruction) (st : PipelineState)
    (hst : st.current_stage = ISSUE) (h : slotCC (instr, st)) :
    slotCC (instr, issuedState c u st) := by
  intro _
  exact h (by simp [hst])

lemma cc_decodeSlot (c : Int) (sb : RegisterScoreboard) (units : ExecutionUnits)
    (p : Slot) (h : slotCC p) : slotCC (decodeSlot c sb units p) := by
  by_cases hd : p.2.current_stage = DECODE
  · intro _
    simp only [decodeSlot, decodeStep, hd, if_true, detectHazards_eq]
    split_ifs <;> exact h (by simp [hd])
  · simpa [decodeSlot, decodeStep, hd] using h

lemma cc_fetchStep (p : Slot) (h : slotCC p) : slotCC (fetchStep p) := by
  by_cases h1 : p.2.current_stage = FETCH
  · intro _
    simp only [fetchStep, h1, if_true]
    exact h (by simp [h1])
  · by_cases h2 : p.2.current_stage = IDLE
    · intro _
      simp only [fetchStep, h1, if_false, h2, if_true]
      exact h (by simp [h2])
    · simpa [fetchStep, h1, h2] using h

lemma cc_accountStep (p : Slot) (h : slotCC p) : slotCC (accountStep p) := by
  by_cases hc : p.2.current_stage ≠ IDLE ∧ p.2.current_stage ≠ COMPLETE
  · intro _
    simp only [accountStep]
    rw [if_pos hc]
    exact h hc.2
  · simpa [accountStep, hc] using h

lemma forall_cc_map (f : Slot → Slot) (hf : ∀ p, slotCC p → slotCC (f p))
    (l : List Slot) (h : ∀ p ∈ l, slotCC p) : ∀ q ∈ l.map f, slotCC q := by
  intro q hq
  rw [List.mem_map] at hq
  obtain ⟨p, hp, rfl⟩ := hq
  exact hf p (h p hp)

lemma issuePass_mem (c : Nat) :
    ∀ (slots : List Slot) (sb : RegisterScoreboard) (units : ExecutionUnits)
      (q : Slot), q ∈ (issuePass c slots sb units).1 →
      q ∈ slots ∨ ∃ p, p ∈ slots ∧ p.2.current_stage = ISSUE ∧
        q = (p.1, issuedState c (getExecUnit p.1.opcode) p.2)
  | [], _, _, q => by simp [issuePass]
  | (instr, st) :: rest, sb, units, q => by
      intro hq
      by_cases h : st.current_stage = ISSUE
      · by_cases h2 : (units.allocate (getExecUnit instr.opcode)).2
        · simp [issuePass, h, h2] at hq
          cases hq with
          | inl heq =>
              right
              exact ⟨(instr, st), List.mem_cons_self _ _, h, by simp [heq, issuedState]⟩
          | inr htail =>
              rcases issuePass_mem c rest _ _ q htail with hin | ⟨p, hp, hps, hpe⟩
              · exact Or.inl (List.mem_cons_of_mem _ hin)
              · exact Or.inr ⟨p, List.mem_cons_of_mem _ hp, hps, hpe⟩
        · simp [issuePass, h, h2] at hq
          cases hq with
          | inl heq => exact Or.inl (by simp [heq])
          | inr htail =>
              rcases issuePass_mem c rest _ _ q htail with hin | ⟨p, hp, hps, hpe⟩
              · exact Or.inl (List.mem_cons_of_mem _ hin)
              · exact Or.inr ⟨p, List.mem_cons_of_mem _ hp, hps, hpe⟩
      · simp [issuePass, h] at hq
        cases hq with
        | inl heq => exact Or.inl (by simp [heq])
        | inr htail =>
            rcases issuePass_mem c rest _ _ q htail with hin | ⟨p, hp, hps, hpe⟩
            · exact Or.inl (List.mem_cons_of_mem _ hin)
            · exact Or.inr ⟨p, List.mem_cons_of_mem _ hp, hps, hpe⟩

lemma issuePass_cc (c : Nat) (slots : List Slot) (sb : RegisterScoreboard)
    (units : ExecutionUnits) (h : ∀ p ∈ slots, slotCC p) :
    ∀ q ∈ (issuePass c slots sb units).1, slotCC q := by
  intro q hq
  rcases issuePass_mem c slots sb units q hq with hin | ⟨p, hp, hps, rfl⟩
  · exact h q hin
  · exact cc_issued c _ p.1 p.2 hps (h p hp)

lemma runCycle_cc (s : SimState) (h : ∀ p ∈ s.slots, slotCC p) :
    ∀ p ∈ (runCycle s).slots, slotCC p := by
  have h1 : ∀ p ∈ (writebackPass ((s.cycle + 1 : Nat) : Int) s.slots s.scoreboard
      s.exec_units s.completed).1, slotCC p := by
    rw [writebackPass_fst]
    exact forall_cc_map _ (cc_wbStep _) _ h
  have h2 := forall_cc_map executeStep cc_executeStep _ h1
  have h3 := issuePass_cc (s.cycle + 1) _
    (writebackPass ((s.cycle + 1 : Nat) : Int) s.slots s.scoreboard s.exec_units
      s.completed).2.1
    (writebackPass ((s.cycle + 1 : Nat) : Int) s.slots s.scoreboard s.exec_units
      s.completed).2.2.1 h2
  intro q hq
  have hq2 : q ∈ accountPass (fetchPass (decodePass ((s.cycle + 1 : Nat) : Int)
      (issuePass (s.cycle + 1) (executePass (writebackPass ((s.cycle + 1 : Nat) : Int)
          s.slots s.scoreboard s.exec_units s.completed).1)
        (writebackPass ((s.cycle + 1 : Nat) : Int) s.slots s.scoreboard s.exec_units
          s.completed).2.1
        (writebackPass ((s.cycle + 1 : Nat) : Int) s.slots s.scoreboard s.exec_units
          s.completed).2.2.1).2.1
      (issuePass (s.cycle + 1) (executePass (writebackPass ((s.cycle + 1 : Nat) : Int)
          s.slots s.scoreboard s.exec_units s.completed).1)
        (writebackPass ((s.cycle + 1 : Nat) : Int) s.slots s.scoreboard s.exec_units
          s.completed).2.1
        (writebackPass ((s.cycle + 1 : Nat) : Int) s.slots s.scoreboard s.exec_units
          s.completed).2.2.1).2.2
      (issuePass (s.cycle + 1) (executePass (writebackPass ((s.cycle + 1 : Nat) : Int)
          s.slots s.scoreboard s.exec_units s.completed).1)
        (writebackPass ((s.cycle + 1 : Nat) : Int) s.slots s.scoreboard s.exec_units
          s.completed).2.1
        (writebackPass ((s.cycle + 1 : Nat) : Int) s.slots s.scoreboard s.exec_units
          s.completed).2.2.1).1 s.stats).1) := hq
  rw [decodePass_fst] at hq2
  refine forall_cc_map accountStep cc_accountStep _ ?_ q hq2
  refine forall_cc_map fetchStep cc_fetchStep _ ?_
  exact forall_cc_map _ (cc_decodeSlot _ _ _) _ h3

end Pipeline
namespace Pipeline
open Opcode ExecUnit Stage

/-- C3: for every input program the simulation loop terminates, stopping
exactly when `completed` reaches the number of instructions or when `cycle`
reaches `MAX_CYCLES = 500`, whichever happens first; the partial result is
still returned on timeout, and every slot that is not COMPLETE keeps
`complete_cycle = -1`. -/
theorem simulation_termination (instructions : List Instruction) :
    ((simulate instructions).completed = instructions.length ∨
      (simulate instructions).cycle = MAX_CYCLES) ∧
    (simulate instructions).cycle ≤ MAX_CYCLES ∧
    (simulate instructions).completed ≤ instructions.length ∧
    loopGuard (simulate instructions) = false ∧
    ((simulate instructions).cycle < MAX_CYCLES →
      (simulate instructions).completed = instructions.length) ∧
    ((simulate instructions).completed < instructions.length →
      (simulate instructions).cycle = MAX_CYCLES) ∧
    (∀ p ∈ (simulate instructions).slots,
      p.2.current_stage ≠ COMPLETE → p.2.complete_cycle = -1) := by
  have hstep : ∀ s : SimState,
      (s.slots.length = instructions.length ∧ s.completed = countComplete s.slots ∧
        ∀ p ∈ s.slots, slotCC p) →
      ((runCycle s).slots.length = instructions.length ∧
        (runCycle s).completed = countComplete (runCycle s).slots ∧
        ∀ p ∈ (runCycle s).slots, slotCC p) := by
    intro s ⟨hl, hcm, hcc⟩
    exact ⟨by rw [runCycle_slots_length, hl], runCycle_completed_inv s hcm,
      runCycle_cc s hcc⟩
  have hinit : (initState instructions).slots.length = instructions.length ∧
      (initState instructions).completed = countComplete (initState instructions).slots ∧
      ∀ p ∈ (initState instructions).slots, slotCC p := by
    refine ⟨by simp [initState], ?_, ?_⟩
    · show 0 = countComplete _
      simp only [initState, countComplete, List.countP_map]
      rw [eq_comm, List.countP_eq_zero]
      intro p _
      simp [initPipelineState]
    · intro p hp
      simp only [initState, List.mem_map] at hp
      obtain ⟨instr, _, rfl⟩ := hp
      intro _
      rfl
  have hP := simLoop_inv _ hstep MAX_CYCLES (initState instructions) hinit
  have hg : loopGuard (simLoop MAX_CYCLES (initState instructions)) = false :=
    simLoop_guard_false MAX_CYCLES (initState instructions) (by simp [initState])
  have hcy : (simLoop MAX_CYCLES (initState instructions)).cycle ≤ MAX_CYCLES :=
    simLoop_cycle_le MAX_CYCLES (initState instructions) (by simp [initState])
  have hle : (simulate instructions).completed ≤ instructions.length := by
    show (simLoop MAX_CYCLES (initState instructions)).completed ≤ instructions.length
    rw [hP.2.1, ← hP.1]
    exact countComplete_le_length _
  have hlen : (simulate instructions).slots.length = instructions.length := hP.1
  have hccf : ∀ p ∈ (simulate instructions).slots, slotCC p := hP.2.2
  have hgf : loopGuard (simulate instructions) = false := hg
  have hcyf : (simulate instructions).cycle ≤ MAX_CYCLES := hcy
  have hg2 : (simulate instructions).completed < (simulate instructions).slots.length →
      MAX_CYCLES ≤ (simulate instructions).cycle := by
    simpa [loopGuard, Bool.and_eq_false_iff] using hgf
  rw [hlen] at hg2
  refine ⟨?_, hcyf, hle, hgf, ?_, ?_, hccf⟩
  · by_cases h : (simulate instructions).completed < instructions.length
    · exact Or.inr (by have := hg2 h; omega)
    · exact Or.inl (by omega)
  · intro h
    by_cases h2 : (simulate instructions).completed < instructions.length
    · have := hg2 h2
      omega
    · omega
  · intro h
    have := hg2 h
    omega

end Pipeline
namespace Pipeline
open Opcode ExecUnit Stage

lemma availOf_setAvail_self (e : ExecutionUnits) (u : ExecUnit) (n : Nat)
    (hu : u ≠ ANY_UNIT) : (e.setAvail u n).availOf u = n := by
  cases u <;> simp_all [ExecutionUnits.setAvail, ExecutionUnits.availOf]

lemma availOf_setAvail_ne (e : ExecutionUnits) (v u : ExecUnit) (n : Nat)
    (hv : v ≠ u) : (e.setAvail v n).availOf u = e.availOf u := by
  cases v <;> cases u <;> simp_all [ExecutionUnits.setAvail, ExecutionUnits.availOf]

lemma isAvailable_ne_any (e : ExecutionUnits) (v : ExecUnit)
    (h : e.isAvailable v = true) : v ≠ ANY_UNIT := by
  cases v <;> simp_all [ExecutionUnits.isAvailable]

lemma isAvailable_pos (e : ExecutionUnits) (v : ExecUnit)
    (h : e.isAvailable v = true) : 0 < e.availOf v := by
  cases v <;> simp_all [ExecutionUnits.isAvailable, ExecutionUnits.availOf]

lemma allocate_snd (e : ExecutionUnits) (v : ExecUnit) :
    (e.allocate v).2 = e.isAvailable v := by
  by_cases h : e.isAvailable v <;> simp [ExecutionUnits.allocate, h]

lemma allocate_fst_of_success (e : ExecutionUnits) (v : ExecUnit)
    (h : (e.allocate v).2 = true) :
    (e.allocate v).1 = e.setAvail v (e.availOf v - 1) := by
  rw [allocate_snd] at h
  simp [ExecutionUnits.allocate, h]

lemma allocate_fst_of_fail (e : ExecutionUnits) (v : ExecUnit)
    (h : (e.allocate v).2 = false) : (e.allocate v).1 = e := by
  rw [allocate_snd] at h
  simp [ExecutionUnits.allocate, h]

lemma release_availOf_self (e : ExecutionUnits) (u : ExecUnit) (hu : u ≠ ANY_UNIT)
    (hlt : e.availOf u < capacityOf u) : (e.release u).availOf u = e.availOf u + 1 := by
  cases u <;> simp_all [ExecutionUnits.release, ExecutionUnits.availOf,
    ExecutionUnits.setAvail, capacityOf]

lemma release_availOf_ne (e : ExecutionUnits) (v u : ExecUnit) (hne : v ≠ u) :
    (e.release v).availOf u = e.availOf u := by
  cases v
  case ANY_UNIT => rfl
  all_goals
    simp only [ExecutionUnits.release]
    split_ifs <;> [rw [availOf_setAvail_ne _ _ _ _ hne]; rfl]

end Pipeline
namespace Pipeline
open Opcode ExecUnit Stage

lemma inflight_executePass (u : ExecUnit) (slots : List Slot) :
    inflight u (executePass slots) = inflight u slots := by
  refine countP_map_eq _ _ (fun p => ?_) slots
  by_cases h : p.2.current_stage = EXECUTE
  · simp only [ewP, executeStep, h, if_true]
    split_ifs <;> simp [h]
  · simp [ewP, executeStep, h]

lemma inflight_decodeMap (u : ExecUnit) (c : Int) (sb : RegisterScoreboard)
    (units : ExecutionUnits) (slots : List Slot) :
    inflight u (slots.map (decodeSlot c sb units)) = inflight u slots := by
  refine countP_map_eq _ _ (fun p => ?_) slots
  by_cases h : p.2.current_stage = DECODE
  · simp only [ewP, decodeSlot, decodeStep, h, if_true, detectHazards_eq]
    split_ifs <;> simp [h]
  · simp [ewP, decodeSlot, decodeStep, h]

lemma inflight_fetchPass (u : ExecUnit) (slots : List Slot) :
    inflight u (fetchPass slots) = inflight u slots := by
  refine countP_map_eq _ _ (fun p => ?_) slots
  by_cases h1 : p.2.current_stage = FETCH
  · simp [ewP, fetchStep, h1]
  · by_cases h2 : p.2.current_stage = IDLE <;> simp [ewP, fetchStep, h1, h2]

lemma inflight_accountPass (u : ExecUnit) (slots : List Slot) :
    inflight u (accountPass slots) = inflight u slots := by
  refine countP_map_eq _ _ (fun p => ?_) slots
  by_cases h : p.2.current_stage ≠ IDLE ∧ p.2.current_stage ≠ COMPLETE <;>
    simp [ewP, accountStep, h]

end Pipeline
namespace Pipeline
open Opcode ExecUnit Stage

lemma writebackPass_inflight (c : Int) (u : ExecUnit) (hu : u ≠ ANY_UNIT) :
    ∀ (slots : List Slot) (sb : RegisterScoreboard) (units : ExecutionUnits)
      (comp : Nat) (m : Nat), m ≤ capacityOf u →
      units.availOf u + inflight u slots = m →
      ((writebackPass c slots sb units comp).2.2.1).availOf u +
        inflight u (writebackPass c slots sb units comp).1 = m
  | [], sb, units, comp, m, hm, hsum => hsum
  | (instr, st) :: rest, sb, units, comp, m, hm, hsum => by
      rw [inflight, List.countP_cons] at hsum
      by_cases hw : st.current_stage = WRITEBACK
      · have hhead2 : ewP u (instr,
            { st with current_stage := COMPLETE, complete_cycle := c }) = false := by
          simp [ewP]
        by_cases hau : st.assigned_unit = u
        · have hhead : ewP u ((instr, st) : Slot) = true := by simp [ewP, hau, hw]
          rw [hhead] at hsum
          simp only [if_true] at hsum
          have hlt : units.availOf u < capacityOf u := by omega
          have hne : st.assigned_unit ≠ ANY_UNIT := by rw [hau]; exact hu
          have hrel : (units.release st.assigned_unit).availOf u =
              units.availOf u + 1 := by
            rw [hau]
            exact release_availOf_self units u hu hlt
          have ih := writebackPass_inflight c u hu rest (sb.clearBusy instr.dest)
            (units.release st.assigned_unit) (comp + 1) m hm
            (by rw [inflight, hrel]; omega)
          simp only [writebackPass, hw, if_true, hne, ne_eq, not_false_eq_true,
            if_true, inflight, List.countP_cons, hhead2, Bool.false_eq_true,
            if_false, Nat.add_zero]
          simp only [inflight] at ih
          omega
        · have hhead : ewP u ((instr, st) : Slot) = false := by simp [ewP, hau]
          rw [hhead] at hsum
          simp only [Bool.false_eq_true, if_false, Nat.add_zero] at hsum
          by_cases ha : st.assigned_unit = ANY_UNIT
          · have hguard : (if st.assigned_unit ≠ ANY_UNIT then
                units.release st.assigned_unit else units) = units := by
              rw [ha]
              simp
            have ih := writebackPass_inflight c u hu rest (sb.clearBusy instr.dest)
              units (comp + 1) m hm (by rw [inflight]; omega)
            simp only [writebackPass, hw, if_true, hguard, inflight,
              List.countP_cons, hhead2, Bool.false_eq_true, if_false, Nat.add_zero]
            simp only [inflight] at ih
            omega
          · have hrel : (units.release st.assigned_unit).availOf u =
                units.availOf u := release_availOf_ne units st.assigned_unit u hau
            have ih := writebackPass_inflight c u hu rest (sb.clearBusy instr.dest)
              (units.release st.assigned_unit) (comp + 1) m hm
              (by rw [inflight, hrel]; omega)
            simp only [writebackPass, hw, if_true, ha, ne_eq, not_false_eq_true,
              if_true, inflight, List.countP_cons, hhead2, Bool.false_eq_true,
              if_false, Nat.add_zero]
            simp only [inflight] at ih
            omega
      · have ih := writebackPass_inflight c u hu rest sb units comp
          (units.availOf u + List.countP (ewP u) rest) (by omega) rfl
        simp only [writebackPass, hw, if_false, inflight, List.countP_cons]
        simp only [inflight] at ih
        omega

end Pipeline
namespace Pipeline
open Opcode ExecUnit Stage

lemma issuePass_inflight (c : Nat) (u : ExecUnit) (hu : u ≠ ANY_UNIT) :
    ∀ (slots : List Slot) (sb : RegisterScoreboard) (units : ExecutionUnits)
      (m : Nat), units.availOf u + inflight u slots = m →
      ((issuePass c slots sb units).2.2).availOf u +
        inflight u (issuePass c slots sb units).1 = m
  | [], sb, units, m, hsum => hsum
  | (instr, st) :: rest, sb, units, m, hsum => by
      rw [inflight, List.countP_cons] at hsum
      by_cases h : st.current_stage = ISSUE
      · have hhead : ewP u ((instr, st) : Slot) = false := by simp [ewP, h]
        rw [hhead] at hsum
        simp only [Bool.false_eq_true, if_false, Nat.add_zero] at hsum
        by_cases h2 : (units.allocate (getExecUnit instr.opcode)).2
        · have hav : units.isAvailable (getExecUnit instr.opcode) = true := by
            rw [← allocate_snd]
            exact h2
          have hpos := isAvailable_pos units _ hav
          have hne := isAvailable_ne_any units _ hav
          have hfst := allocate_fst_of_success units (getExecUnit instr.opcode) h2
          by_cases hv : getExecUnit instr.opcode = u
          · have hhead2 : ewP u (instr, issuedState c (getExecUnit instr.opcode) st) =
                true := by simp [ewP, issuedState, hv]
            have havail : (units.allocate (getExecUnit instr.opcode)).1.availOf u =
                units.availOf u - 1 := by
              rw [hfst, hv]
              exact availOf_setAvail_self units u _ hu
            have ih := issuePass_inflight c u hu rest
              (sb.markBusy instr.dest instr.id ((c : Int) + getLatency instr.opcode))
              (units.allocate (getExecUnit instr.opcode)).1
              (units.availOf u - 1 + List.countP (ewP u) rest)
              (by rw [inflight, havail])
            simp only [issuePass, h, if_true, h2, inflight, List.countP_cons]
            simp only [inflight] at ih
            rw [hv] at hpos
            have hhead3 : ewP u (instr, { st with
                current_stage := EXECUTE, assigned_unit := getExecUnit instr.opcode,
                cycles_in_stage := 0, issue_cycle := (c : Int) }) = true := by
              simpa [issuedState] using hhead2
            rw [hhead3]
            simp only [if_true]
            omega
          · have hhead3 : ewP u (instr, { st with
                current_stage := EXECUTE, assigned_unit := getExecUnit instr.opcode,
                cycles_in_stage := 0, issue_cycle := (c : Int) }) = false := by
              simp [ewP, hv]
            have havail : (units.allocate (getExecUnit instr.opcode)).1.availOf u =
                units.availOf u := by
              rw [hfst]
              exact availOf_setAvail_ne units _ u _ hv
            have ih := issuePass_inflight c u hu rest
              (sb.markBusy instr.dest instr.id ((c : Int) + getLatency instr.opcode))
              (units.allocate (getExecUnit instr.opcode)).1
              (units.availOf u + List.countP (ewP u) rest)
              (by rw [inflight, havail])
            simp only [issuePass, h, if_true, h2, inflight, List.countP_cons, hhead3,
              Bool.false_eq_true, if_false, Nat.add_zero]
            simp only [inflight] at ih
            omega
        · have hfst := allocate_fst_of_fail units (getExecUnit instr.opcode)
            (by simpa using h2)
          have ih := issuePass_inflight c u hu rest sb
            (units.allocate (getExecUnit instr.opcode)).1
            (units.availOf u + List.countP (ewP u) rest)
            (by rw [inflight, hfst])
          simp only [issuePass, h, if_true, h2, if_false, inflight, List.countP_cons,
            hhead, Bool.false_eq_true, Nat.add_zero]
          simp only [inflight] at ih
          omega
      · have ih := issuePass_inflight c u hu rest sb units
          (units.availOf u + List.countP (ewP u) rest) (by rw [inflight])
        simp only [issuePass, h, if_false, inflight, List.countP_cons]
        simp only [inflight] at ih
        omega

end Pipeline
namespace Pipeline
open Opcode ExecUnit Stage

lemma runCycle_unitsInv (s : SimState) (h : unitsInv s) : unitsInv (runCycle s) := by
  intro u hu
  have hwb := writebackPass_inflight ((s.cycle + 1 : Nat) : Int) u hu s.slots
    s.scoreboard s.exec_units s.completed (capacityOf u) le_rfl (h u hu)
  have hiss := issuePass_inflight (s.cycle + 1) u hu
    (executePass (writebackPass ((s.cycle + 1 : Nat) : Int) s.slots s.scoreboard
      s.exec_units s.completed).1)
    (writebackPass ((s.cycle + 1 : Nat) : Int) s.slots s.scoreboard s.exec_units
      s.completed).2.1
    (writebackPass ((s.cycle + 1 : Nat) : Int) s.slots s.scoreboard s.exec_units
      s.completed).2.2.1
    (capacityOf u) (by rw [inflight_executePass]; exact hwb)
  show (issuePass (s.cycle + 1) (executePass (writebackPass ((s.cycle + 1 : Nat) : Int)
      s.slots s.scoreboard s.exec_units s.completed).1)
      (writebackPass ((s.cycle + 1 : Nat) : Int) s.slots s.scoreboard s.exec_units
        s.completed).2.1
      (writebackPass ((s.cycle + 1 : Nat) : Int) s.slots s.scoreboard s.exec_units
        s.completed).2.2.1).2.2.availOf u +
    inflight u (accountPass (fetchPass (decodePass ((s.cycle + 1 : Nat) : Int) _ _
      (issuePass (s.cycle + 1) (executePass (writebackPass ((s.cycle + 1 : Nat) : Int)
          s.slots s.scoreboard s.exec_units s.completed).1) _ _).1 s.stats).1)) =
    capacityOf u
  rw [inflight_accountPass, inflight_fetchPass, decodePass_fst, inflight_decodeMap]
  exact hiss

lemma initState_unitsInv (instructions : List Instruction) :
    unitsInv (initState instructions) := by
  intro u hu
  have hz : inflight u (initState instructions).slots = 0 := by
    simp only [initState, inflight, List.countP_map]
    rw [List.countP_eq_zero]
    intro p _
    simp [ewP, Function.comp, initPipelineState]
  rw [hz]
  cases u <;> simp [initState, initExecutionUnits, ExecutionUnits.availOf, capacityOf]

lemma guardedStep_unitsInv (s : SimState) (h : unitsInv s) : unitsInv (guardedStep s) := by
  by_cases hg : loopGuard s
  · simpa [guardedStep, hg] using runCycle_unitsInv s h
  · simpa [guardedStep, hg] using h

lemma stepN_unitsInv (instructions : List Instruction) :
    ∀ k : Nat, unitsInv (stepN instructions k)
  | 0 => initState_unitsInv instructions
  | k + 1 => by
      rw [stepN, Function.iterate_succ_apply']
      exact guardedStep_unitsInv _ (stepN_unitsInv instructions k)

lemma simLoop_unitsInv (instructions : List Instruction) :
    unitsInv (simulate instructions) :=
  simLoop_inv unitsInv runCycle_unitsInv MAX_CYCLES (initState instructions)
    (initState_unitsInv instructions)

/-- C2: for every input program, after every cycle of the simulation and for
every real execution unit `u`, the number of slots with `assigned_unit = u`
and stage in {EXECUTE, WRITEBACK} is at most `capacity[u]` (ALU 2, FPU 1,
MEM 1, BRANCH 1) — the pool, never reset inside the loop, stays coupled to
the in-flight counts. -/
theorem unit_capacity_invariant (instructions : List Instruction) (k : Nat)
    (u : ExecUnit) (hu : u ≠ ANY_UNIT) :
    inflight u (stepN instructions k).slots ≤ capacityOf u ∧
    inflight u (simulate instructions).slots ≤ capacityOf u := by
  constructor
  · have := stepN_unitsInv instructions k u hu
    omega
  · have := simLoop_unitsInv instructions u hu
    omega

/-- C2 witness: the bound evaluated on the two-ALU-op program after 4 cycles
and at the end of its simulation. -/
theorem unit_capacity_invariant_witness :
    inflight ALU_UNIT (stepN addSubProg 4).slots ≤ capacityOf ALU_UNIT ∧
    inflight ALU_UNIT (simulate addSubProg).slots ≤ capacityOf ALU_UNIT :=
  unit_capacity_invariant addSubProg 4 ALU_UNIT (by decide)

end Pipeline
